import Mathlib

/-!
Verification of the HysteriaClientDocker supervisor scripts.

The Python sources embedded here are:
  src/url_parser.py                (URL to config translation)
  src/config_tester.py             (probing, per-candidate benchmark, fleet evaluation)
  src/periodic_tester.py           (periodic best-config runner, variant A)
  src/boot_with_periordic_tester.py (periodic best-config runner, variant B)

Conventions of the embedding: machine-level effects (filesystem, OS process
table, network probes) are made explicit, either as oracle inputs describing
what the external world answers, or as an explicit world state threaded
through the functions.  Standard-library behaviour that the repository only
calls (urlparse, parse_qs, percent decoding) is represented by passing the
already-parsed components as arguments, exactly the values the Python code
reads off the stdlib objects.
-/

namespace HysteriaClient

namespace UrlParser

/-- TLS section of a generated config.  The Python code builds a dict and
only inserts the keys it computed; an absent key is `none` here. -/
structure TlsConfig where
  insecure : Option Bool
  sni : Option String
deriving Repr, DecidableEq

/-- Bandwidth section: the code only creates it when the up parameter is
present, and adds down only inside that branch. -/
structure BandwidthConfig where
  up : String
  down : Option String
deriving Repr, DecidableEq

/-- A listener section such as socks5 or http: a single listen address. -/
structure ListenConfig where
  listen : String
deriving Repr, DecidableEq

/-- The config dict produced by parse_hysteria_url.  Fields the code assigns
unconditionally are plain, fields assigned conditionally are Options. -/
structure HyConfig where
  server : String
  auth : String
  name : String
  tls : Option TlsConfig
  bandwidth : Option BandwidthConfig
  socks5 : ListenConfig
  http : ListenConfig
deriving Repr, DecidableEq

/-- Query parameters as the ordered multi-list that parse_qs collects; the
Python code always reads query_params[k][0], i.e. the first value for k,
which is the first matching pair here.  qget q k = some v iff k is present
with first value v; qget q k = none iff the test (k in query_params) fails. -/
def qget (query : List (String × String)) (k : String) : Option String :=
  (query.find? (fun p => p.1 == k)).map (fun p => p.2)

/-- Python str.lower restricted to the ASCII range, which is all the code
compares against (the values 1, true, yes); defined over the character list
so that concrete instances reduce inside the kernel. -/
def lowerAscii (s : String) : String :=
  String.mk (s.data.map Char.toLower)

/-- Python s.rsplit(sep, 1): split off the substring after the last
occurrence of sep; when sep does not occur, the second component is none. -/
def rsplit1 (s sep : String) : String × Option String :=
  match (s.splitOn sep).reverse with
  | [] => (s, none)
  | [_] => (s, none)
  | last :: rest => (String.intercalate sep rest.reverse, some last)

/-- The netloc clean-up of parse_hysteria_url: when an at sign is present,
keep element 1 of the split (as netloc.split at-sign index 1 does). -/
def stripUserinfo (netloc : String) : String :=
  if netloc.contains '@' then (netloc.splitOn "@").getD 1 "" else netloc

/-- Embedding of parse_hysteria_url from src/url_parser.py.  The arguments
are the stdlib-parsed URL components the code reads: parsed.scheme,
parsed.username, parsed.netloc, parse_qs of parsed.query, and the
percent-decoded fragment.  Errors raised by the code become Except.error,
wrapped with the outer handler prefix as in the source. -/
def parse_hysteria_url (scheme : String) (username : Option String)
    (netloc : String) (query : List (String × String)) (fragment : String) :
    Except String HyConfig :=
  if scheme ≠ "hysteria2" then
    .error ("Failed to parse URL: Unsupported scheme: " ++ scheme ++
      ". Expected \x27hysteria2\x27")
  else
    match username with
    | none => .error "Failed to parse URL: Missing authentication in URL"
    | some auth =>
      if auth = "" then .error "Failed to parse URL: Missing authentication in URL"
      else
        let name := if fragment = "" then "Hysteria Client" else fragment
        let hp := rsplit1 (stripUserinfo netloc) ":"
        let host := hp.1
        let port_part := hp.2
        let server :=
          match qget query "mport" with
          | some m => host ++ ":" ++ m
          | none =>
            match port_part with
            | some p => if p ≠ "" then host ++ ":" ++ p else host ++ ":443"
            | none => host ++ ":443"
        let tls_insecure : Option Bool :=
          (qget query "insecure").map (fun v =>
            lowerAscii v == "1" || lowerAscii v == "true" || lowerAscii v == "yes")
        let tls_sni := qget query "sni"
        let tls : Option TlsConfig :=
          if tls_insecure.isSome ∨ tls_sni.isSome then
            some ⟨tls_insecure, tls_sni⟩
          else none
        let bandwidth : Option BandwidthConfig :=
          (qget query "up").map (fun u => ⟨u, qget query "down"⟩)
        let socks5 : ListenConfig := ⟨(qget query "socks5").getD "0.0.0.0:1080"⟩
        let http : ListenConfig := ⟨(qget query "http").getD "0.0.0.0:1089"⟩
        .ok ⟨server, auth, name, tls, bandwidth, socks5, http⟩

end UrlParser

namespace ConfigTester

/-- Outcome delivered by the network for one requests.get attempt through
the SOCKS5 proxy: an HTTP response with status code and measured round-trip
latency in milliseconds, a requests Timeout, a requests ConnectionError, or
any other exception carrying its rendered message. -/
inductive Attempt where
  | resp (status : Nat) (latency : Nat)
  | timeoutErr
  | connErr
  | otherErr (msg : String)
deriving Repr, DecidableEq

/-- Loop body of test_connectivity: walk the URL list keeping last_latency
and last_message, returning at the first response whose status code is 200
or 204. -/
def test_connectivity_go (timeout : Nat) :
    List (String × Attempt) → Nat → String → Bool × Nat × String
  | [], lastLat, lastMsg => (false, lastLat, lastMsg)
  | (url, a) :: rest, _, _ =>
    match a with
    | .resp status latency =>
      if status = 200 ∨ status = 204 then
        (true, latency, "Success via " ++ url)
      else
        test_connectivity_go timeout rest latency
          ("HTTP " ++ toString status ++ " via " ++ url)
    | .timeoutErr =>
      test_connectivity_go timeout rest (timeout * 1000) ("Timeout via " ++ url)
    | .connErr =>
      test_connectivity_go timeout rest 0 ("Connection Error via " ++ url)
    | .otherErr msg =>
      test_connectivity_go timeout rest 0 (msg ++ " via " ++ url)

/-- Embedding of test_connectivity from src/config_tester.py.  The input
pairs each test URL, in order, with the attempt outcome the network
delivers for it; timeout is the per-attempt timeout in seconds. -/
def test_connectivity (attempts : List (String × Attempt)) (timeout : Nat) :
    Bool × Nat × String :=
  test_connectivity_go timeout attempts 0 "No attempts made"

/-- Latency recorded by the failure branch taken for one attempt, read off
the assignments in the loop of test_connectivity. -/
def failLatency (timeout : Nat) : Attempt → Nat
  | .resp _ latency => latency
  | .timeoutErr => timeout * 1000
  | .connErr => 0
  | .otherErr _ => 0

/-- Message recorded by the failure branch taken for one attempt. -/
def failMessage (url : String) : Attempt → String
  | .resp status _ => "HTTP " ++ toString status ++ " via " ++ url
  | .timeoutErr => "Timeout via " ++ url
  | .connErr => "Connection Error via " ++ url
  | .otherErr msg => msg ++ " via " ++ url

/-- An attempt counts as a success exactly when it is an HTTP response with
status 200 or 204. -/
def succAttempt : Attempt → Bool
  | .resp status _ => status == 200 || status == 204
  | _ => false

/-- What one iteration of the polling loop in run_hysteria_test encounters:
the child process has already exited, or a connectivity test runs against
the network behaviour given by the attempt list, or an exception is raised
during the iteration. -/
inductive LoopStep where
  | exited
  | net (attempts : List (String × Attempt))
  | raised (msg : String)
deriving Repr, DecidableEq

/-- Observable world state of one run_hysteria_test invocation: whether the
test-variant config file currently exists, whether the spawned child is
alive, and whether a child was ever spawned. -/
structure World where
  testFileExists : Bool
  childAlive : Bool
  childSpawned : Bool
deriving Repr, DecidableEq

/-- Environment of one run_hysteria_test invocation: whether
create_test_config succeeds, whether subprocess.Popen raises (with the
rendered message), and the behaviour of the successive polling-loop
iterations that happen before the test_duration clock expires. -/
structure RunEnv where
  createOk : Bool
  popenErr : Option String
  steps : List LoopStep
deriving Repr, DecidableEq

/-- How the polling loop ends: normally with the last success, latency and
message values, or by an exception propagating out of the loop body. -/
inductive LoopExit where
  | normal (success : Bool) (latency : Nat) (message : String)
  | exn (msg : String)
deriving Repr, DecidableEq

/-- The while loop of run_hysteria_test.  An empty step list means the
test_duration clock has expired, ending the loop with the accumulated
values; the exited step is the poll call observing that the child died;
a net step is one test_connectivity call with per-attempt timeout 5,
breaking on success and otherwise retrying after the backoff sleep. -/
def run_loop : List LoopStep → World → Bool → Nat → String → World × LoopExit
  | [], w, success, latency, message => (w, .normal success latency message)
  | step :: rest, w, success, latency, _message =>
    match step with
    | .exited =>
      ({w with childAlive := false},
       .normal success latency "Hysteria process exited prematurely")
    | .net attempts =>
      match test_connectivity attempts 5 with
      | (true, lat, msg) => (w, .normal true lat msg)
      | (false, lat, msg) => run_loop rest w false lat msg
    | .raised m => (w, .exn m)

/-- Embedding of run_hysteria_test from src/config_tester.py.  Returns the
final world state together with the (success, latency, message) triple the
function returns.  The terminate/wait/kill sequence after a normal loop
exit always leaves the child dead, and the os.remove of the test config is
modelled as succeeding on an existing file; an exception that reaches the
outer handler returns the process-error result without either cleanup. -/
def run_hysteria_test (env : RunEnv) : World × (Bool × Nat × String) :=
  if env.createOk = false then
    (⟨false, false, false⟩, (false, 0, "Config creation failed"))
  else
    match env.popenErr with
    | some e => (⟨true, false, false⟩, (false, 0, "Process error: " ++ e))
    | none =>
      match run_loop env.steps ⟨true, true, true⟩ false 0 "Not started" with
      | (w, .normal success latency message) =>
        ({w with childAlive := false, testFileExists := false},
         (success, latency, message))
      | (w, .exn m) => (w, (false, 0, "Process error: " ++ m))

/-- Python str.split for a one-character separator, over character lists. -/
def splitChar (c : Char) : List Char → List (List Char)
  | [] => [[]]
  | x :: xs =>
    let r := splitChar c xs
    if x = c then [] :: r
    else
      match r with
      | [] => [[x]]
      | h :: t => (x :: h) :: t

/-- Left-to-right removal of every non-overlapping occurrence of pat, as
Python s.replace(pat, empty) does; the fuel argument is the scan budget and
any fuel at least the list length gives the full scan. -/
def removeSubstrAux (pat : List Char) : Nat → List Char → List Char
  | 0, l => l
  | _ + 1, [] => []
  | fuel + 1, x :: xs =>
    if pat ≠ [] ∧ pat.isPrefixOf (x :: xs) then
      removeSubstrAux pat fuel ((x :: xs).drop pat.length)
    else
      x :: removeSubstrAux pat fuel xs

/-- The config-name derivation of test_all_configs:
os.path.basename(path).replace of .yaml by the empty string. -/
def basenameNoYaml (path : String) : String :=
  String.mk (removeSubstrAux ".yaml".data path.data.length
    ((splitChar '/' path.data).getLast?.getD []))

/-- One result record as test_all_configs builds it. -/
structure BenchRecord where
  config : String
  success : Bool
  latency : Nat
  message : String
deriving Repr, DecidableEq

/-- Loop of test_all_configs over the enumerated config files: candidate
number idx runs on port proxy_port + idx.  Besides the result records this
also returns the log of (config file, port) benchmark invocations, so that
the port assignment is part of the observable behaviour. -/
def test_all_configs_go (runTest : String → Nat → Bool × Nat × String)
    (proxy_port : Nat) :
    List String → Nat → List BenchRecord × List (String × Nat)
  | [], _ => ([], [])
  | f :: rest, idx =>
    let current_port := proxy_port + idx
    let r := runTest f current_port
    let tail := test_all_configs_go runTest proxy_port rest (idx + 1)
    (⟨basenameNoYaml f, r.1, r.2.1, r.2.2⟩ :: tail.1,
     (f, current_port) :: tail.2)

/-- Embedding of test_all_configs from src/config_tester.py: files is the
discovery order find_config_files yields, and runTest the observable
(success, latency, message) behaviour of run_hysteria_test per file and
port.  An empty discovery yields the empty result list. -/
def test_all_configs (files : List String) (proxy_port : Nat)
    (runTest : String → Nat → Bool × Nat × String) :
    List BenchRecord × List (String × Nat) :=
  test_all_configs_go runTest proxy_port files 0

/-- The ranking step every caller of test_all_configs applies before
selection (print_test_summary, find_best_config and the return-best mode
all run successful.sort keyed by latency over the successful subset):
Python list.sort is stable, so its result is the one stable ascending
reordering, which mergeSort computes. -/
def sortSuccessful (results : List BenchRecord) : List BenchRecord :=
  (results.filter (fun r => r.success)).mergeSort
    (fun a b => a.latency ≤ b.latency)

end ConfigTester

namespace Runner

/-- Abstract state of a PeriodicRunner together with the OS process table:
live lists the pids of currently live hysteria child processes, nextPid is
a fresh-pid supply, hysteria_process is the stored Popen handle (which may
refer to an already-dead process), current_config the recorded identity,
and saved the content of the persisted state file. -/
structure RState where
  live : List Nat
  nextPid : Nat
  hysteria_process : Option Nat
  current_config : Option String
  saved : Option (String × Nat)
deriving Repr, DecidableEq

/-- Observable process-management events of the runner: stop pid is the
terminate-and-wait of the process the handle refers to, start name pid is a
Popen launching a child for the named config, save is the write of the
persisted state file. -/
inductive Ev where
  | stop (pid : Nat)
  | start (name : String) (pid : Nat)
  | save (name : String) (latency : Nat)
deriving Repr, DecidableEq

/-- Environment outcome of one start_hysteria call: the config file is
missing, Popen raises, the child dies during the 2 second verification
delay, or the child is still alive after it. -/
inductive StartOutcome where
  | noFile
  | popenFail
  | dies
  | ok
deriving Repr, DecidableEq

/-- Embedding of PeriodicRunner.stop_hysteria (identical in both runner
variants): a no-op without a handle; otherwise terminate and wait with a 10
second timeout, escalating to kill — on every branch the process ends dead
and the finally block clears the handle. -/
def stop_hysteria (s : RState) : RState × List Ev :=
  match s.hysteria_process with
  | none => (s, [])
  | some pid =>
    ({s with live := s.live.erase pid, hysteria_process := none}, [.stop pid])

/-- Embedding of PeriodicRunner.start_hysteria (identical in both runner
variants): check that the config file exists, Popen a child, sleep 2
seconds, then poll once; when the child is still alive record the identity
and return true, otherwise clear the handle and return false.  The Bool is
the Python return value. -/
def start_hysteria (name : String) (o : StartOutcome) (s : RState) :
    RState × Bool × List Ev :=
  match o with
  | .noFile => (s, false, [])
  | .popenFail => ({s with hysteria_process := none}, false, [])
  | .dies =>
    ({s with nextPid := s.nextPid + 1, hysteria_process := none}, false,
     [.start name s.nextPid])
  | .ok =>
    (⟨s.nextPid :: s.live, s.nextPid + 1, some s.nextPid, some name, s.saved⟩,
     true, [.start name s.nextPid])

/-- One evaluation round as the periodic worker sees it: the best
successful record found by find_best_config (none when the round has no
results, no successes, or raises), and the environment outcome of whichever
start_hysteria call the round makes. -/
structure Round where
  best : Option (String × Nat)
  so : StartOutcome
deriving Repr, DecidableEq

/-- One iteration of the periodic worker of src/periodic_tester.py after
the interval sleep: no usable best keeps the current config; a best equal
to the current config does nothing; otherwise stop the current process,
start the new best, and persist the state on success. -/
def periodic_round (r : Round) (s : RState) : RState × List Ev :=
  match r.best with
  | none => (s, [])
  | some (name, lat) =>
    if s.current_config = some name then (s, [])
    else
      let p1 := stop_hysteria s
      let p2 := start_hysteria name r.so p1.1
      if p2.2.1 then
        ({p2.1 with saved := some (name, lat)}, p1.2 ++ p2.2.2 ++ [.save name lat])
      else (p2.1, p1.2 ++ p2.2.2)

/-- One iteration of the periodic worker of
src/boot_with_periordic_tester.py: the current process is stopped before
testing to avoid interference; with no usable best the previous config is
restored best-effort; otherwise the round's best is started even when its
name equals the previous one, and the state persisted on success. -/
def boot_round (r : Round) (s : RState) : RState × List Ev :=
  let previous := s.current_config
  let p1 := stop_hysteria s
  match r.best with
  | none =>
    match previous with
    | some p =>
      let p2 := start_hysteria p r.so p1.1
      (p2.1, p1.2 ++ p2.2.2)
    | none => p1
  | some (name, lat) =>
    let p2 := start_hysteria name r.so p1.1
    if p2.2.1 then
      ({p2.1 with saved := some (name, lat)}, p1.2 ++ p2.2.2 ++ [.save name lat])
    else (p2.1, p1.2 ++ p2.2.2)

/-- Several consecutive iterations of the src/periodic_tester.py worker;
the loop body catches exceptions, so each round runs whatever the previous
ones did. -/
def periodic_run : List Round → RState → RState × List Ev
  | [], s => (s, [])
  | r :: rest, s =>
    let p1 := periodic_round r s
    let p2 := periodic_run rest p1.1
    (p2.1, p1.2 ++ p2.2)

/-- Program counter of the periodic worker thread in the interleaved model
of src/periodic_tester.py, at statement granularity along its switch path:
idle covers the sleep and the round evaluation, inStop is about to execute
the body of stop_hysteria, inPopen has stopped and is about to Popen the
new child, inCheck is sleeping the 2 second verification delay before the
poll. -/
inductive WPc where
  | idle
  | inStop (best : String)
  | inPopen (best : String)
  | inCheck (best : String) (pid : Nat)
deriving Repr, DecidableEq

/-- Program counter of the crash-recovery main loop of PeriodicRunner.start
in the interleaved model: check is the top of the while loop, inExists has
observed a dead handle and is inside start_hysteria before the file check,
inPopen is about to Popen, inCheck is sleeping before the poll. -/
inductive MPc where
  | check
  | inExists (cfg : String)
  | inPopen (cfg : String)
  | inCheck (cfg : String) (pid : Nat)
deriving Repr, DecidableEq

/-- Interleaved two-thread configuration of a running PeriodicRunner: the
shared runner state (with the OS process table) and the two program
counters.  The worker thread and the main loop of src/periodic_tester.py
run concurrently over the same unsynchronized fields. -/
structure Sys where
  st : RState
  wpc : WPc
  mpc : MPc
deriving Repr, DecidableEq

/-- Schedule labels of the interleaved model: crash is the production child
dying on its own; the w labels advance the worker thread by one atomic
statement and the m labels the main loop.  Each label's effect is the
corresponding statement of src/periodic_tester.py, and a label that is not
enabled at the current program counter yields none.  Every block treated as
atomic here is a contiguous statement sequence of a single thread, so each
trace of this model is realizable by the actual interpreter, which can
switch threads between any two statements. -/
inductive Lbl where
  | crash (pid : Nat)
  | wDecide (best : String)
  | wStop
  | wPopen
  | wCheck
  | mCheck
  | mExists
  | mPopen
  | mCheck2
deriving Repr, DecidableEq

/-- One labelled atomic step of the interleaved model. -/
def step (l : Lbl) (c : Sys) : Option Sys :=
  match l with
  | .crash pid =>
    if pid ∈ c.st.live then
      some {c with st := {c.st with live := c.st.live.erase pid}}
    else none
  | .wDecide best =>
    match c.wpc with
    | .idle =>
      if c.st.current_config = some best then some c
      else some {c with wpc := .inStop best}
    | _ => none
  | .wStop =>
    match c.wpc with
    | .inStop best =>
      some {c with st := (stop_hysteria c.st).1, wpc := .inPopen best}
    | _ => none
  | .wPopen =>
    match c.wpc with
    | .inPopen best =>
      some {c with
        st := ⟨c.st.nextPid :: c.st.live, c.st.nextPid + 1,
               some c.st.nextPid, c.st.current_config, c.st.saved⟩,
        wpc := .inCheck best c.st.nextPid}
    | _ => none
  | .wCheck =>
    match c.wpc with
    | .inCheck best pid =>
      if pid ∈ c.st.live then
        some {c with st := {c.st with current_config := some best}, wpc := .idle}
      else
        some {c with st := {c.st with hysteria_process := none}, wpc := .idle}
    | _ => none
  | .mCheck =>
    match c.mpc with
    | .check =>
      match c.st.hysteria_process with
      | some pid =>
        if pid ∈ c.st.live then some c
        else
          match c.st.current_config with
          | some cfg => some {c with mpc := .inExists cfg}
          | none => some c
      | none => some c
    | _ => none
  | .mExists =>
    match c.mpc with
    | .inExists cfg => some {c with mpc := .inPopen cfg}
    | _ => none
  | .mPopen =>
    match c.mpc with
    | .inPopen cfg =>
      some {c with
        st := ⟨c.st.nextPid :: c.st.live, c.st.nextPid + 1,
               some c.st.nextPid, c.st.current_config, c.st.saved⟩,
        mpc := .inCheck cfg c.st.nextPid}
    | _ => none
  | .mCheck2 =>
    match c.mpc with
    | .inCheck cfg pid =>
      if pid ∈ c.st.live then
        some {c with st := {c.st with current_config := some cfg}, mpc := .check}
      else
        some {c with st := {c.st with hysteria_process := none}, mpc := .check}
    | _ => none

/-- Run a schedule of labelled steps from a configuration; none when some
label is not enabled where it occurs. -/
def runSchedule : List Lbl → Sys → Option Sys
  | [], c => some c
  | l :: rest, c => (step l c).bind (runSchedule rest)

end Runner

end HysteriaClient

namespace HysteriaClient

open UrlParser

/-- C9: for every parseable hysteria2 URL whose query has first value 1 for
insecure and example.com for sni, the produced config has a tls section with
insecure true and that sni; and for every parseable URL without an insecure
key, any tls section the config has contains no insecure key. -/
theorem C9_tls_insecure_sni :
    (∀ scheme u nl q frag cfg,
      parse_hysteria_url scheme u nl q frag = .ok cfg →
      qget q "insecure" = some "1" → qget q "sni" = some "example.com" →
      cfg.tls = some ⟨some true, some "example.com"⟩) ∧
    (∀ scheme u nl q frag cfg,
      parse_hysteria_url scheme u nl q frag = .ok cfg →
      qget q "insecure" = none →
      ∀ t, cfg.tls = some t → t.insecure = none) := by
  constructor
  · intro scheme u nl q frag cfg hok hins hsni
    unfold parse_hysteria_url at hok
    split at hok
    · exact absurd hok (by simp)
    · match u with
      | none => exact absurd hok (by simp)
      | some auth =>
        simp only at hok
        split at hok
        · exact absurd hok (by simp)
        · simp only [Except.ok.injEq] at hok
          subst hok
          simp only [hins, hsni, Option.map_some, Option.isSome_some, true_or, if_pos,
            Option.some.injEq, TlsConfig.mk.injEq]
          decide
  · intro scheme u nl q frag cfg hok hins t htls
    unfold parse_hysteria_url at hok
    split at hok
    · exact absurd hok (by simp)
    · match u with
      | none => exact absurd hok (by simp)
      | some auth =>
        simp only at hok
        split at hok
        · exact absurd hok (by simp)
        · simp only [Except.ok.injEq] at hok
          subst hok
          simp only [hins, Option.map_none] at htls ⊢
          split at htls
          · simp only [Option.some.injEq] at htls
            subst htls
            rfl
          · exact absurd htls (by simp)

/-- Witness for C9 at a concrete URL, corresponding to
hysteria2://57903c8f at v5.example.top:57022?insecure=1&sni=example.com
and to the same URL without the insecure parameter. -/
theorem C9_tls_insecure_sni_witness :
    (∃ cfg, parse_hysteria_url "hysteria2" (some "57903c8f")
        "57903c8f@v5.example.top:57022"
        [("insecure", "1"), ("sni", "example.com")] "V5" = .ok cfg ∧
      cfg.tls = some ⟨some true, some "example.com"⟩) ∧
    (∃ cfg t, parse_hysteria_url "hysteria2" (some "57903c8f")
        "57903c8f@v5.example.top:57022"
        [("sni", "example.com")] "V5" = .ok cfg ∧
      cfg.tls = some t ∧ t.insecure = none) := by
  constructor
  · exact ⟨_, rfl, C9_tls_insecure_sni.1 "hysteria2" (some "57903c8f")
      "57903c8f@v5.example.top:57022"
      [("insecure", "1"), ("sni", "example.com")] "V5" _ rfl rfl rfl⟩
  · exact ⟨_, _, rfl, rfl, C9_tls_insecure_sni.2 "hysteria2" (some "57903c8f")
      "57903c8f@v5.example.top:57022"
      [("sni", "example.com")] "V5" _ rfl rfl _ rfl⟩

/-- C10: every parseable hysteria2 URL yields a config that has both a
socks5 and an http section (plain fields of HyConfig, assigned on every
success path), defaulting to 0.0.0.0:1080 resp. 0.0.0.0:1089 when the
corresponding query key is absent. -/
theorem C10_default_listeners :
    ∀ scheme u nl q frag cfg,
      parse_hysteria_url scheme u nl q frag = .ok cfg →
      (qget q "socks5" = none → cfg.socks5 = ⟨"0.0.0.0:1080"⟩) ∧
      (qget q "http" = none → cfg.http = ⟨"0.0.0.0:1089"⟩) := by
  intro scheme u nl q frag cfg hok
  unfold parse_hysteria_url at hok
  split at hok
  · exact absurd hok (by simp)
  · match u with
    | none => exact absurd hok (by simp)
    | some auth =>
      simp only at hok
      split at hok
      · exact absurd hok (by simp)
      · simp only [Except.ok.injEq] at hok
        subst hok
        constructor
        · intro hs
          simp [hs]
        · intro hh
          simp [hh]

/-- Witness for C10 at a concrete URL with neither socks5 nor http query
parameter. -/
theorem C10_default_listeners_witness :
    ∃ cfg, parse_hysteria_url "hysteria2" (some "d4aa6c84")
        "d4aa6c84@v3.example.top:11092" [("insecure", "1")] "" = .ok cfg ∧
      cfg.socks5 = ⟨"0.0.0.0:1080"⟩ ∧ cfg.http = ⟨"0.0.0.0:1089"⟩ := by
  refine ⟨_, rfl, ?_, ?_⟩
  · exact (C10_default_listeners "hysteria2" (some "d4aa6c84")
      "d4aa6c84@v3.example.top:11092" [("insecure", "1")] "" _ rfl).1 rfl
  · exact (C10_default_listeners "hysteria2" (some "d4aa6c84")
      "d4aa6c84@v3.example.top:11092" [("insecure", "1")] "" _ rfl).2 rfl

open ConfigTester

/-- The loop of test_connectivity returns at the first attempt whose status
is 200 or 204, with that attempt's measured latency, for any accumulator
values and any later targets. -/
theorem test_connectivity_go_success (timeout : Nat) :
    ∀ (pre : List (String × Attempt)) (url : String) (s lat : Nat)
      (rest : List (String × Attempt)) (acc1 : Nat) (acc2 : String),
      (∀ p ∈ pre, succAttempt p.2 = false) → (s = 200 ∨ s = 204) →
      test_connectivity_go timeout (pre ++ (url, .resp s lat) :: rest) acc1 acc2
        = (true, lat, "Success via " ++ url) := by
  intro pre
  induction pre with
  | nil =>
    intro url s lat rest acc1 acc2 _ hs
    simp only [List.nil_append, test_connectivity_go]
    rw [if_pos hs]
  | cons p ps ih =>
    intro url s lat rest acc1 acc2 hall hs
    have hp : succAttempt p.2 = false := hall p (by simp)
    have hps : ∀ q ∈ ps, succAttempt q.2 = false := fun q hq => hall q (by simp [hq])
    obtain ⟨purl, pa⟩ := p
    cases pa with
    | resp st l =>
      have hst : ¬(st = 200 ∨ st = 204) := by
        simpa [succAttempt] using hp
      simp only [List.cons_append, test_connectivity_go]
      rw [if_neg hst]
      exact ih url s lat rest l ("HTTP " ++ toString st ++ " via " ++ purl) hps hs
    | timeoutErr =>
      simp only [List.cons_append, test_connectivity_go]
      exact ih url s lat rest (timeout * 1000) ("Timeout via " ++ purl) hps hs
    | connErr =>
      simp only [List.cons_append, test_connectivity_go]
      exact ih url s lat rest 0 ("Connection Error via " ++ purl) hps hs
    | otherErr m =>
      simp only [List.cons_append, test_connectivity_go]
      exact ih url s lat rest 0 (m ++ " via " ++ purl) hps hs

/-- When every attempt fails, the loop of test_connectivity returns the
failure classification of the last attempt, whatever the accumulators. -/
theorem test_connectivity_go_allfail (timeout : Nat) :
    ∀ (l : List (String × Attempt)) (url : String) (a : Attempt)
      (acc1 : Nat) (acc2 : String),
      (∀ p ∈ l, succAttempt p.2 = false) → l.getLast? = some (url, a) →
      test_connectivity_go timeout l acc1 acc2
        = (false, failLatency timeout a, failMessage url a) := by
  intro l
  induction l with
  | nil => intro url a acc1 acc2 _ hlast; simp at hlast
  | cons p ps ih =>
    intro url a acc1 acc2 hall hlast
    have hp : succAttempt p.2 = false := hall p (by simp)
    have hps : ∀ q ∈ ps, succAttempt q.2 = false := fun q hq => hall q (by simp [hq])
    cases ps with
    | nil =>
      simp only [List.getLast?_singleton, Option.some.injEq] at hlast
      subst hlast
      simp only at hp
      cases a with
      | resp st lat =>
        have hst : ¬(st = 200 ∨ st = 204) := by simpa [succAttempt] using hp
        simp only [test_connectivity_go]
        rw [if_neg hst]
        rfl
      | timeoutErr => rfl
      | connErr => rfl
      | otherErr m => rfl
    | cons q qs =>
      have hlast2 : (q :: qs).getLast? = some (url, a) := by
        simpa [List.getLast?_cons_cons] using hlast
      obtain ⟨purl, pa⟩ := p
      cases pa with
      | resp st lat =>
        have hst : ¬(st = 200 ∨ st = 204) := by simpa [succAttempt] using hp
        simp only [test_connectivity_go]
        rw [if_neg hst]
        exact ih url a lat ("HTTP " ++ toString st ++ " via " ++ purl) hps hlast2
      | timeoutErr =>
        simp only [test_connectivity_go]
        exact ih url a (timeout * 1000) ("Timeout via " ++ purl) hps hlast2
      | connErr =>
        simp only [test_connectivity_go]
        exact ih url a 0 ("Connection Error via " ++ purl) hps hlast2
      | otherErr m =>
        simp only [test_connectivity_go]
        exact ih url a 0 (m ++ " via " ++ purl) hps hlast2

/-- C7: test_connectivity returns success with the measured latency of the
first target answering 200 or 204, independent of any later targets; and
when every target fails it returns the last attempt's classification:
connection error with latency 0, timeout with latency timeout seconds in
milliseconds, and a response that is not 200 or 204 with its measured
latency and its status code in the message (the failLatency and failMessage
branch tables). -/
theorem C7_probe_order_and_classification :
    (∀ (pre : List (String × Attempt)) (url : String) (s lat : Nat)
       (rest : List (String × Attempt)) (timeout : Nat),
      (∀ p ∈ pre, succAttempt p.2 = false) → (s = 200 ∨ s = 204) →
      test_connectivity (pre ++ (url, .resp s lat) :: rest) timeout
        = (true, lat, "Success via " ++ url)) ∧
    (∀ (l : List (String × Attempt)) (url : String) (a : Attempt) (timeout : Nat),
      (∀ p ∈ l, succAttempt p.2 = false) → l.getLast? = some (url, a) →
      test_connectivity l timeout
        = (false, failLatency timeout a, failMessage url a)) := by
  constructor
  · intro pre url s lat rest timeout hall hs
    exact test_connectivity_go_success timeout pre url s lat rest 0 "No attempts made" hall hs
  · intro l url a timeout hall hlast
    exact test_connectivity_go_allfail timeout l url a 0 "No attempts made" hall hlast

/-- Witness for C7: a concrete probe run succeeding at the second target
without touching the third, and a concrete all-failing run reporting the
last attempt. -/
theorem C7_probe_order_and_classification_witness :
    test_connectivity
        [("https://cp.cloudflare.com/generate_204", .connErr),
         ("https://www.bing.com", .resp 204 37),
         ("https://www.google.com/generate_204", .resp 500 99)] 5
      = (true, 37, "Success via " ++ "https://www.bing.com") ∧
    test_connectivity
        [("https://cp.cloudflare.com/generate_204", .timeoutErr),
         ("https://www.bing.com", .resp 503 80)] 5
      = (false, failLatency 5 (.resp 503 80),
         failMessage "https://www.bing.com" (.resp 503 80)) := by
  constructor
  · exact C7_probe_order_and_classification.1
      [("https://cp.cloudflare.com/generate_204", .connErr)]
      "https://www.bing.com" 204 37
      [("https://www.google.com/generate_204", .resp 500 99)] 5
      (by decide) (by decide)
  · exact C7_probe_order_and_classification.2
      [("https://cp.cloudflare.com/generate_204", .timeoutErr),
       ("https://www.bing.com", .resp 503 80)]
      "https://www.bing.com" (.resp 503 80) 5 (by decide) (by decide)

/-- C2 counterexample: with the test config created, the child launched,
and an exception raised during the first polling iteration, the code path
through the outer exception handler returns a process-error result while
the child process is still alive and the test-variant file still exists,
so the claimed unconditional cleanup fails on the exception exit path. -/
theorem C2_counterexample :
    (run_hysteria_test ⟨true, none, [.raised "boom"]⟩).1.childSpawned = true ∧
    (run_hysteria_test ⟨true, none, [.raised "boom"]⟩).1.childAlive = true ∧
    (run_hysteria_test ⟨true, none, [.raised "boom"]⟩).1.testFileExists = true ∧
    (run_hysteria_test ⟨true, none, [.raised "boom"]⟩).2
      = (false, 0, "Process error: " ++ "boom") := by
  refine ⟨rfl, rfl, rfl, rfl⟩

/-- A polling loop without a raised step ends normally and does not touch
the file flag or the spawned flag. -/
theorem run_loop_no_exn :
    ∀ (steps : List LoopStep) (w : World) (s : Bool) (lat : Nat) (msg : String),
      (∀ m, LoopStep.raised m ∉ steps) →
      ∃ w' s' lat' msg', run_loop steps w s lat msg = (w', .normal s' lat' msg') ∧
        w'.childSpawned = w.childSpawned ∧ w'.testFileExists = w.testFileExists := by
  intro steps
  induction steps with
  | nil => intro w s lat msg _; exact ⟨w, s, lat, msg, rfl, rfl, rfl⟩
  | cons step rest ih =>
    intro w s lat msg hnone
    have hrest : ∀ m, LoopStep.raised m ∉ rest := by
      intro m hm
      exact hnone m (by simp [hm])
    cases step with
    | exited =>
      exact ⟨{w with childAlive := false}, s, lat,
        "Hysteria process exited prematurely", rfl, rfl, rfl⟩
    | net attempts =>
      rcases htc : test_connectivity attempts 5 with ⟨b, lat', msg'⟩
      cases b with
      | true =>
        refine ⟨w, true, lat', msg', ?_, rfl, rfl⟩
        simp only [run_loop, htc]
      | false =>
        obtain ⟨w', s', l', m', heq, h1, h2⟩ := ih w false lat' msg' hrest
        refine ⟨w', s', l', m', ?_, h1, h2⟩
        simp only [run_loop, htc]
        exact heq
    | raised m =>
      exact absurd (by simp : LoopStep.raised m ∈ LoopStep.raised m :: rest)
        (hnone m)

/-- C2 amended: for every invocation in which the child was launched
(Popen did not raise) and no exception is raised during the polling loop,
run_hysteria_test terminates the child and deletes the test-variant file
before returning, on probe success, probe failure, overall timeout and
premature child exit alike; the exception path returns without this
cleanup, as the counterexample shows. -/
theorem C2_cleanup_nonexceptional :
    ∀ env : RunEnv, env.popenErr = none →
      (∀ m, LoopStep.raised m ∉ env.steps) →
      (run_hysteria_test env).1.childAlive = false ∧
      (run_hysteria_test env).1.testFileExists = false := by
  intro env hpo hnone
  unfold run_hysteria_test
  rcases env with ⟨createOk, popenErr, steps⟩
  cases createOk with
  | false => exact ⟨rfl, rfl⟩
  | true =>
    simp only at hpo ⊢
    subst hpo
    obtain ⟨w', s', l', m', heq, _, _⟩ :=
      run_loop_no_exn steps ⟨true, true, true⟩ false 0 "Not started" hnone
    simp only [Bool.true_eq_false, if_false] at heq ⊢
    rw [heq]
    exact ⟨rfl, rfl⟩

/-- Witness for C2 amended at a concrete run: one failed probe iteration,
then the child exits prematurely; child dead and file deleted on return. -/
theorem C2_cleanup_nonexceptional_witness :
    (run_hysteria_test ⟨true, none,
        [.net [("https://www.bing.com", .connErr)], .exited]⟩).1.childAlive = false ∧
    (run_hysteria_test ⟨true, none,
        [.net [("https://www.bing.com", .connErr)], .exited]⟩).1.testFileExists = false := by
  exact C2_cleanup_nonexceptional
    ⟨true, none, [.net [("https://www.bing.com", .connErr)], .exited]⟩
    rfl (by intro m hm; simp at hm)

/-- Elementwise description of the test_all_configs loop: from start index
idx, record i comes from file i run on port base + idx + i, and the call
log pairs file i with that port. -/
theorem test_all_configs_go_get (runTest : String → Nat → Bool × Nat × String)
    (base : Nat) :
    ∀ (files : List String) (idx i : Nat),
      ((test_all_configs_go runTest base files idx).1.get? i
        = (files.get? i).map (fun f =>
            ⟨basenameNoYaml f, (runTest f (base + idx + i)).1,
             (runTest f (base + idx + i)).2.1, (runTest f (base + idx + i)).2.2⟩)) ∧
      ((test_all_configs_go runTest base files idx).2.get? i
        = (files.get? i).map (fun f => (f, base + idx + i))) := by
  intro files
  induction files with
  | nil => intro idx i; simp [test_all_configs_go]
  | cons f rest ih =>
    intro idx i
    cases i with
    | zero => simp [test_all_configs_go]
    | succ i =>
      have h := ih (idx + 1) i
      have harith : base + (idx + 1) + i = base + idx + (i + 1) := by omega
      simp only [test_all_configs_go, List.get?_cons_succ]
      rw [harith] at h
      exact h

/-- C3 counterexample: two discovered candidates where the first fails and
the second succeeds; test_all_configs returns them in discovery order, the
failed record ahead of the successful one and not sorted by latency, so the
returned list is not ordered best-first. -/
theorem C3_counterexample :
    (test_all_configs ["/etc/hysteria/bad.yaml", "/etc/hysteria/good.yaml"] 1081
      (fun f _ => if f = "/etc/hysteria/bad.yaml"
        then (false, 0, "Connection Error via u")
        else (true, 50, "Success via u"))).1
      = [⟨"bad", false, 0, "Connection Error via u"⟩,
         ⟨"good", true, 50, "Success via u"⟩] := by
  decide

/-- C3 amended: test_all_configs returns one record per candidate in
discovery order, unsorted (record i comes from candidate i); an empty
candidate set yields an empty result without raising; the best-first order
is produced by its callers, whose sort of the successful subset is
ascending by latency and contains only successes. -/
theorem C3_discovery_order_and_caller_sort :
    (∀ (files : List String) (base : Nat)
       (runTest : String → Nat → Bool × Nat × String) (i : Nat),
      (test_all_configs files base runTest).1.get? i
        = (files.get? i).map (fun f =>
            ⟨basenameNoYaml f, (runTest f (base + i)).1,
             (runTest f (base + i)).2.1, (runTest f (base + i)).2.2⟩)) ∧
    (∀ results : List BenchRecord,
      (sortSuccessful results).Pairwise (fun a b => a.latency ≤ b.latency) ∧
      ∀ r ∈ sortSuccessful results, r.success = true) ∧
    (∀ (base : Nat) (runTest : String → Nat → Bool × Nat × String),
      test_all_configs [] base runTest = ([], [])) := by
  refine ⟨?_, ?_, fun base runTest => rfl⟩
  · intro files base runTest i
    have h := (test_all_configs_go_get runTest base files 0 i).1
    simpa [test_all_configs] using h
  · intro results
    constructor
    · have h := @List.sorted_mergeSort BenchRecord
        (fun a b => decide (a.latency ≤ b.latency))
        (fun a b c hab hbc => by
          simp only [decide_eq_true_eq] at hab hbc ⊢
          omega)
        (fun a b => by
          simp only [Bool.or_eq_true, decide_eq_true_eq]
          omega)
        (results.filter (fun r => r.success))
      unfold sortSuccessful
      exact h.imp (fun hab => by simpa using hab)
    · intro r hr
      have : r ∈ results.filter (fun x => x.success) := by
        simpa [sortSuccessful, List.mem_mergeSort] using hr
      exact (List.mem_filter.mp this).2

/-- Witness for C3 amended at concrete inputs: the elementwise description
at index 1 of a two-candidate run, the caller sort of a concrete result
list, and the empty case. -/
theorem C3_discovery_order_and_caller_sort_witness :
    ((test_all_configs ["/etc/hysteria/a.yaml", "/etc/hysteria/b.yaml"] 1081
        (fun f _ => if f = "/etc/hysteria/a.yaml"
          then (true, 120, "Success via u") else (true, 45, "Success via u"))).1.get? 1
      = some ⟨"b", true, 45, "Success via u"⟩) ∧
    ((sortSuccessful
        [⟨"a", true, 120, "m"⟩, ⟨"c", false, 0, "m"⟩, ⟨"b", true, 45, "m"⟩]).Pairwise
          (fun a b => a.latency ≤ b.latency)) ∧
    (test_all_configs [] 1081 (fun _ _ => (false, 0, "m")) = ([], [])) := by
  refine ⟨?_, ?_, ?_⟩
  · have h := C3_discovery_order_and_caller_sort.1
      ["/etc/hysteria/a.yaml", "/etc/hysteria/b.yaml"] 1081
      (fun f _ => if f = "/etc/hysteria/a.yaml"
        then (true, 120, "Success via u") else (true, 45, "Success via u")) 1
    rw [h]
    decide
  · exact (C3_discovery_order_and_caller_sort.2.1
      [⟨"a", true, 120, "m"⟩, ⟨"c", false, 0, "m"⟩, ⟨"b", true, 45, "m"⟩]).1
  · exact C3_discovery_order_and_caller_sort.2.2 1081 (fun _ _ => (false, 0, "m"))

/-- C8: within one evaluation round the candidate at index i is benchmarked
on port base + i, and two distinct candidate indices never share a port. -/
theorem C8_port_offsets :
    ∀ (files : List String) (base : Nat)
      (runTest : String → Nat → Bool × Nat × String) (i : Nat),
      ((test_all_configs files base runTest).2.get? i
        = (files.get? i).map (fun f => (f, base + i))) ∧
      (∀ j p q, i ≠ j →
        (test_all_configs files base runTest).2.get? i = some p →
        (test_all_configs files base runTest).2.get? j = some q →
        p.2 ≠ q.2) := by
  intro files base runTest i
  have hi := (test_all_configs_go_get runTest base files 0 i).2
  simp only [Nat.zero_add, test_all_configs] at hi
  have hi' : (test_all_configs_go runTest base files 0).2.get? i
      = (files.get? i).map (fun f => (f, base + i)) := by
    simpa using hi
  refine ⟨hi', ?_⟩
  intro j p q hij hp hq
  have hj := (test_all_configs_go_get runTest base files 0 j).2
  have hj' : (test_all_configs_go runTest base files 0).2.get? j
      = (files.get? j).map (fun f => (f, base + j)) := by
    simpa using hj
  rw [test_all_configs] at hp hq
  rw [hi'] at hp
  rw [hj'] at hq
  obtain ⟨fi, hfi, hpi⟩ := Option.map_eq_some'.mp hp
  obtain ⟨fj, hfj, hqj⟩ := Option.map_eq_some'.mp hq
  subst hpi
  subst hqj
  show base + i ≠ base + j
  omega

/-- Witness for C8 on a concrete two-candidate round with base port 1081. -/
theorem C8_port_offsets_witness :
    ((test_all_configs ["/etc/hysteria/a.yaml", "/etc/hysteria/b.yaml"] 1081
        (fun _ _ => (true, 50, "m"))).2.get? 1
      = some ("/etc/hysteria/b.yaml", 1082)) ∧
    (∀ p q,
      (test_all_configs ["/etc/hysteria/a.yaml", "/etc/hysteria/b.yaml"] 1081
        (fun _ _ => (true, 50, "m"))).2.get? 0 = some p →
      (test_all_configs ["/etc/hysteria/a.yaml", "/etc/hysteria/b.yaml"] 1081
        (fun _ _ => (true, 50, "m"))).2.get? 1 = some q →
      p.2 ≠ q.2) := by
  constructor
  · have h := (C8_port_offsets ["/etc/hysteria/a.yaml", "/etc/hysteria/b.yaml"] 1081
      (fun _ _ => (true, 50, "m")) 1).1
    rw [h]
    decide
  · intro p q hp hq
    exact (C8_port_offsets ["/etc/hysteria/a.yaml", "/etc/hysteria/b.yaml"] 1081
      (fun _ _ => (true, 50, "m")) 0).2 1 p q (by decide) hp hq

open Runner

/-- C1: the at-most-one-live-child invariant fails under the real thread
interleaving of src/periodic_tester.py, whose worker thread and
crash-recovery main loop share hysteria_process and current_config with no
lock.  From one live production child (pid 0, config a), the schedule:
the child crashes; the main loop observes the dead handle and enters its
restart path; the worker thread decides to switch to config b, stops the
dead handle and launches its child (pid 1); the main loop then completes
its own launch (pid 2).  The final state has two live hysteria children,
pids 1 and 2.  The second conjunct shows the state just before the main
loop's Popen: the worker's freshly launched pid 1 is live and referenced by
the shared handle, so that launch is a start beginning while a process
handle for another identity is alive. -/
theorem C1_race_two_live_children :
    (runSchedule [.crash 0, .mCheck, .wDecide "b", .wStop, .wPopen, .mExists, .mPopen]
        ⟨⟨[0], 1, some 0, some "a", none⟩, .idle, .check⟩
      = some ⟨⟨[2, 1], 3, some 2, some "a", none⟩, .inCheck "b" 1, .inCheck "a" 2⟩) ∧
    (runSchedule [.crash 0, .mCheck, .wDecide "b", .wStop, .wPopen]
        ⟨⟨[0], 1, some 0, some "a", none⟩, .idle, .check⟩
      = some ⟨⟨[1], 2, some 1, some "a", none⟩, .inCheck "b" 1, .inExists "a"⟩) := by
  decide

/-- The stop of a runner leaves the recorded identity untouched. -/
theorem stop_hysteria_current (s : RState) :
    (stop_hysteria s).1.current_config = s.current_config := by
  rcases hsp : s.hysteria_process with _ | pid <;> simp [stop_hysteria, hsp]

/-- C4 counterexample: in src/boot_with_periordic_tester.py a round with
zero successful configs does not leave the production child untouched: from
a state running pid 0 for config a, the worker stops pid 0 before testing
and then restarts config a as pid 1, so the child is both stopped and
restarted as a consequence of that round. -/
theorem C4_counterexample :
    boot_round ⟨none, .ok⟩ ⟨[0], 1, some 0, some "a", none⟩
      = (⟨[1], 2, some 1, some "a", none⟩, [.stop 0, .start "a" 1]) := by
  decide

/-- C4 amended: in the src/periodic_tester.py variant a zero-success round
leaves the runner state untouched and performs no stop, start or save at
all; in the src/boot_with_periordic_tester.py variant the worker has
already stopped the production child before evaluating, and a zero-success
round then restores the previous identity best-effort (its event trace is
the stop followed by the restore attempt), with the recorded current
identity unchanged under every start outcome. -/
theorem C4_no_success_round :
    (∀ (s : RState) (o : StartOutcome), periodic_round ⟨none, o⟩ s = (s, [])) ∧
    (∀ (s : RState) (p : String) (o : StartOutcome), s.current_config = some p →
      (boot_round ⟨none, o⟩ s).1.current_config = some p ∧
      (boot_round ⟨none, o⟩ s).2
        = (stop_hysteria s).2 ++ (start_hysteria p o (stop_hysteria s).1).2.2) := by
  constructor
  · intro s o; rfl
  · intro s p o hp
    constructor
    · rcases o with _ | _ | _ | _ <;>
        simp [boot_round, hp, start_hysteria, stop_hysteria_current]
    · simp [boot_round, hp]

/-- Witness for C4 amended at a concrete state running pid 0 for config a
with a successful restore. -/
theorem C4_no_success_round_witness :
    ((boot_round ⟨none, .ok⟩ ⟨[0], 1, some 0, some "a", none⟩).1.current_config
      = some "a") ∧
    ((boot_round ⟨none, .ok⟩ ⟨[0], 1, some 0, some "a", none⟩).2
      = (stop_hysteria ⟨[0], 1, some 0, some "a", none⟩).2
        ++ (start_hysteria "a" .ok
            (stop_hysteria ⟨[0], 1, some 0, some "a", none⟩).1).2.2) :=
  C4_no_success_round.2 ⟨[0], 1, some 0, some "a", none⟩ "a" .ok rfl

/-- C5 counterexample: in src/boot_with_periordic_tester.py a round whose
winner equals the running identity still stops and restarts the production
child: from running pid 0 for config a, a round with best a at latency 45
emits a stop of pid 0, a start of a as pid 1 and a state save. -/
theorem C5_counterexample :
    boot_round ⟨some ("a", 45), .ok⟩ ⟨[0], 1, some 0, some "a", none⟩
      = (⟨[1], 2, some 1, some "a", some ("a", 45)⟩,
         [.stop 0, .start "a" 1, .save "a" 45]) := by
  decide

/-- After a src/periodic_tester.py round whose winner started successfully,
the recorded identity is that winner. -/
theorem periodic_round_ok_current (s : RState) (name : String) (lat : Nat) :
    (periodic_round ⟨some (name, lat), .ok⟩ s).1.current_config = some name := by
  by_cases h : s.current_config = some name
  · simp [periodic_round, h]
  · simp [periodic_round, h, start_hysteria]

/-- A src/periodic_tester.py round whose winner is the recorded identity is
a no-op. -/
theorem periodic_round_same_winner (s : RState) (name : String) (lat : Nat)
    (o : StartOutcome) (h : s.current_config = some name) :
    periodic_round ⟨some (name, lat), o⟩ s = (s, []) := by
  simp [periodic_round, h]

/-- C5 amended: in the src/periodic_tester.py variant a round whose winner
equals the recorded current identity performs no stop, no start, no save
and no state change; after a round that adopted its winner with a
successful start, a further round with the same winner is a no-op, so
consecutive equal-winner rounds produce no events beyond the first
adoption.  In the src/boot_with_periordic_tester.py variant every round
with a winner stops the child before testing and starts the winner even
when it equals the running identity. -/
theorem C5_same_winner_no_switch :
    (∀ (s : RState) (name : String) (lat : Nat) (o : StartOutcome),
      s.current_config = some name →
      periodic_round ⟨some (name, lat), o⟩ s = (s, [])) ∧
    (∀ (s : RState) (name : String) (lat lat2 : Nat) (o2 : StartOutcome),
      periodic_round ⟨some (name, lat2), o2⟩
          (periodic_round ⟨some (name, lat), .ok⟩ s).1
        = ((periodic_round ⟨some (name, lat), .ok⟩ s).1, [])) ∧
    (∀ (s : RState) (pid : Nat) (name : String) (lat : Nat),
      s.hysteria_process = some pid → s.current_config = some name →
      (boot_round ⟨some (name, lat), .ok⟩ s).2
        = [.stop pid, .start name s.nextPid, .save name lat]) := by
  refine ⟨?_, ?_, ?_⟩
  · intro s name lat o h
    exact periodic_round_same_winner s name lat o h
  · intro s name lat lat2 o2
    exact periodic_round_same_winner _ name lat2 o2 (periodic_round_ok_current s name lat)
  · intro s pid name lat hsp hc
    simp [boot_round, stop_hysteria, start_hysteria, hsp]

/-- Witness for C5 amended on concrete states: an equal-winner round from a
running state, a repeated round after an adoption, and the boot variant's
stop-and-restart on an equal winner. -/
theorem C5_same_winner_no_switch_witness :
    (periodic_round ⟨some ("a", 45), .ok⟩ ⟨[0], 1, some 0, some "a", none⟩
      = (⟨[0], 1, some 0, some "a", none⟩, [])) ∧
    (periodic_round ⟨some ("b", 50), .ok⟩
        (periodic_round ⟨some ("b", 45), .ok⟩ ⟨[0], 1, some 0, some "a", none⟩).1
      = ((periodic_round ⟨some ("b", 45), .ok⟩ ⟨[0], 1, some 0, some "a", none⟩).1, [])) ∧
    ((boot_round ⟨some ("a", 45), .ok⟩ ⟨[0], 1, some 0, some "a", none⟩).2
      = [.stop 0, .start "a" 1, .save "a" 45]) :=
  ⟨C5_same_winner_no_switch.1 ⟨[0], 1, some 0, some "a", none⟩ "a" 45 .ok rfl,
   C5_same_winner_no_switch.2.1 ⟨[0], 1, some 0, some "a", none⟩ "b" 45 50 .ok,
   C5_same_winner_no_switch.2.2 ⟨[0], 1, some 0, some "a", none⟩ 0 "a" 45 rfl rfl⟩

/-- C6 counterexample: in src/periodic_tester.py a failed start of the new
winner triggers no fallback restart of the previous identity: from running
pid 0 for config a, a round with best b whose start dies stops pid 0 and
launches only b (pid 1, which dies), ending with no handle, no live child,
the previous identity a still recorded, and no start event for a in the
trace. -/
theorem C6_counterexample :
    periodic_round ⟨some ("b", 40), .dies⟩ ⟨[0], 1, some 0, some "a", none⟩
      = (⟨[], 2, none, some "a", none⟩, [.stop 0, .start "b" 1]) := by
  decide

/-- C6 amended: when the start of the newly selected winner fails (the
child dies during the verification delay, or Popen raises), neither
variant falls back to restarting the previous identity within that round:
every start event of the round is for the winner only, the handle ends
cleared and the previously recorded identity stays recorded; and the
supervising loop itself survives a failed start — a following round whose
winner starts successfully leaves that winner recorded and running. -/
theorem C6_failed_switch_no_fallback :
    (∀ (s : RState) (name : String) (lat : Nat) (o : StartOutcome),
      s.current_config ≠ some name → (o = .dies ∨ o = .popenFail) →
      (periodic_round ⟨some (name, lat), o⟩ s).1.hysteria_process = none ∧
      (periodic_round ⟨some (name, lat), o⟩ s).1.current_config = s.current_config ∧
      (∀ (n : String) (pid : Nat),
        Ev.start n pid ∈ (periodic_round ⟨some (name, lat), o⟩ s).2 → n = name)) ∧
    (∀ (s : RState) (name : String) (lat : Nat) (o : StartOutcome),
      (o = .dies ∨ o = .popenFail) →
      (boot_round ⟨some (name, lat), o⟩ s).1.hysteria_process = none ∧
      (boot_round ⟨some (name, lat), o⟩ s).1.current_config = s.current_config ∧
      (∀ (n : String) (pid : Nat),
        Ev.start n pid ∈ (boot_round ⟨some (name, lat), o⟩ s).2 → n = name)) ∧
    (∀ (s : RState) (name name2 : String) (lat lat2 : Nat),
      s.current_config ≠ some name → s.current_config ≠ some name2 →
      (periodic_run [⟨some (name, lat), .dies⟩, ⟨some (name2, lat2), .ok⟩] s).1.current_config
        = some name2 ∧
      (periodic_run [⟨some (name, lat), .dies⟩, ⟨some (name2, lat2), .ok⟩] s).1.hysteria_process
        = some (s.nextPid + 1)) := by
  refine ⟨?_, ?_, ?_⟩
  · intro s name lat o hne ho
    rcases hsp : s.hysteria_process with _ | pid <;> rcases ho with ho | ho <;> subst ho <;>
      refine ⟨?_, ?_, ?_⟩ <;>
        simp [periodic_round, hne, start_hysteria, stop_hysteria, hsp]
  · intro s name lat o ho
    rcases hsp : s.hysteria_process with _ | pid <;> rcases ho with ho | ho <;> subst ho <;>
      refine ⟨?_, ?_, ?_⟩ <;>
        simp [boot_round, start_hysteria, stop_hysteria, hsp]
  · intro s name name2 lat lat2 hne hne2
    have hcur : (periodic_round ⟨some (name, lat), .dies⟩ s).1.current_config
        = s.current_config := by
      simp [periodic_round, hne, start_hysteria, stop_hysteria_current]
    have hnp : (periodic_round ⟨some (name, lat), .dies⟩ s).1.nextPid
        = s.nextPid + 1 := by
      rcases hsp : s.hysteria_process with _ | pid <;>
        simp [periodic_round, hne, start_hysteria, stop_hysteria, hsp]
    have hhp : (periodic_round ⟨some (name, lat), .dies⟩ s).1.hysteria_process
        = none := by
      simp [periodic_round, hne, start_hysteria]
    have hne2' : (periodic_round ⟨some (name, lat), .dies⟩ s).1.current_config
        ≠ some name2 := by rw [hcur]; exact hne2
    have hsecond : ∀ q : RState, q.current_config ≠ some name2 →
        q.hysteria_process = none → q.nextPid = s.nextPid + 1 →
        (periodic_round ⟨some (name2, lat2), .ok⟩ q).1.hysteria_process
          = some (s.nextPid + 1) := by
      intro q h1 h2 h3
      simp [periodic_round, h1, start_hysteria, stop_hysteria, h2, h3]
    exact ⟨periodic_round_ok_current _ name2 lat2,
      hsecond _ hne2' hhp hnp⟩

/-- Witness for C6 amended on concrete states: a dying switch in each
variant from a running state, and the two-round recovery. -/
theorem C6_failed_switch_no_fallback_witness :
    ((periodic_round ⟨some ("b", 40), .dies⟩
        ⟨[0], 1, some 0, some "a", none⟩).1.hysteria_process = none) ∧
    ((boot_round ⟨some ("b", 40), .popenFail⟩
        ⟨[0], 1, some 0, some "a", none⟩).1.current_config = some "a") ∧
    ((periodic_run [⟨some ("b", 40), .dies⟩, ⟨some ("c", 60), .ok⟩]
        ⟨[0], 1, some 0, some "a", none⟩).1.current_config = some "c") :=
  ⟨(C6_failed_switch_no_fallback.1 ⟨[0], 1, some 0, some "a", none⟩ "b" 40 .dies
      (by decide) (Or.inl rfl)).1,
   (C6_failed_switch_no_fallback.2.1 ⟨[0], 1, some 0, some "a", none⟩ "b" 40 .popenFail
      (Or.inr rfl)).2.1,
   (C6_failed_switch_no_fallback.2.2 ⟨[0], 1, some 0, some "a", none⟩ "b" "c" 40 60
      (by decide) (by decide)).1⟩

end HysteriaClient
